import Mathlib

/-!
Verification of the `ethernet_client` library shipped with
`synapticon/ethernet_client_examples`.

The repository ships the library as headers (`include/common.h`,
`include/ethernet_client/ethernet_client.h`) plus example drivers; the
compiled bodies of the non-template functions (message codec, value
codec, session operations) are distributed as prebuilt static
libraries.  Functions whose bodies are not in the sources are modelled
from the specification, as marked in their doc comments.  Inline and
template code present in the headers (`Parameter::trySetValue`,
`Parameter::tryGetValue`, the comparison operators, the `seqId_{0}`
initializer) is transliterated directly from the source.

Machine integers are modelled as `Nat` (with explicit `% 2 ^ w` where
the C++ code truncates) and signed values as `Int`.  Bytes are `Nat`
values below 256; byte buffers are `List Nat`.  Fallible C++ code
(functions documented to throw) returns `Except CodecError`.
-/

namespace EthernetClient

/-- Error taxonomy of the client, from spec section 7: the conditions a
codec or session call can fail with. -/
inductive CodecError where
  | shortHeader
  | truncated
  | sizeMismatch
  | unsupportedType
  | typeMismatch
  deriving DecidableEq, Repr

/-- `EthernetMessage` from `ethernet_client.h` lines 74-124: the parsed
frame.  The C++ struct stores `type`, `status` and `sqiStatus` as
one-byte enums and `id`, `size` as `uint16_t`; here all are `Nat` with
the byte/word bounds recorded by `EthernetMessage.WF`. -/
structure EthernetMessage where
  type : Nat
  id : Nat
  status : Nat
  sqiStatus : Nat
  size : Nat
  data : List Nat
  deriving DecidableEq, Repr

/-- `EthernetMessage::kHeaderSize` (`ethernet_client.h` line 76). -/
def kHeaderSize : Nat := 7

/-- `EthernetMessage::kBufferSize = 1500 - kHeaderSize`
(`ethernet_client.h` line 79). -/
def kBufferSize : Nat := 1500 - kHeaderSize

/-- The bounds guaranteed by the C++ field types of `EthernetMessage`
(`uint8_t` enums, `uint16_t` id and size, `uint8_t` payload bytes). -/
def EthernetMessage.WF (m : EthernetMessage) : Prop :=
  m.type < 256 ∧ m.id < 65536 ∧ m.status < 256 ∧ m.sqiStatus < 256 ∧
    m.size < 65536 ∧ ∀ b ∈ m.data, b < 256

instance (m : EthernetMessage) : Decidable m.WF := by
  unfold EthernetMessage.WF; infer_instance

/-- Modelled from the spec: the body of `serializeEthernetMessage`
(declared at `ethernet_client.h` lines 146-159) is not in the sources.
Spec sections 3 and 4.2 and scenario 1 give the layout: the 7-byte
header `type, id_lo, id_hi, status, sqiStatus, size_lo, size_hi` with
the two-byte fields little-endian, followed by the payload verbatim. -/
def serializeEthernetMessage (m : EthernetMessage) : List Nat :=
  m.type :: m.id % 256 :: m.id / 256 % 256 ::
    m.status :: m.sqiStatus :: m.size % 256 :: m.size / 256 % 256 :: m.data

/-- Modelled from the spec: the body of `parseEthernetMessage`
(declared at `ethernet_client.h` lines 126-144) is not in the sources.
Spec section 4.2: fewer than 7 bytes fails `ShortHeader`; the header is
read little-endian; `size` payload bytes follow, fewer fails
`Truncated`; trailing bytes are ignored. -/
def parseEthernetMessage (buffer : List Nat) :
    Except CodecError EthernetMessage :=
  match buffer with
  | t :: i0 :: i1 :: st :: sq :: s0 :: s1 :: rest =>
      let sz := s0 + 256 * s1
      if rest.length < sz then .error .truncated
      else .ok ⟨t, i0 + 256 * i1, st, sq, sz, rest.take sz⟩
  | _ => .error .shortHeader

/-- `ObjectDataType` from `common.h` lines 302-393 (the constructors
the claims exercise; `UNSPECIFIED` and the BIT/BITARR types stand for
the codes with no codec rule). -/
inductive ObjectDataType where
  | UNSPECIFIED
  | BOOLEAN
  | BYTE
  | WORD
  | DWORD
  | BIT1
  | BITARR8
  | INTEGER8
  | INTEGER16
  | INTEGER24
  | INTEGER32
  | INTEGER40
  | INTEGER48
  | INTEGER56
  | INTEGER64
  | UNSIGNED8
  | UNSIGNED16
  | UNSIGNED24
  | UNSIGNED32
  | UNSIGNED40
  | UNSIGNED48
  | UNSIGNED56
  | UNSIGNED64
  | REAL32
  | REAL64
  | VISIBLE_STRING
  | OCTET_STRING
  | UNICODE_STRING
  | PDO_MAPPING
  | IDENTITY
  | COMMAND_PAR
  | RECORD
  deriving DecidableEq, Repr

/-- `ParameterValue` from `common.h` lines 444-449: the variant of
typed parameter values.  Signed alternatives carry `Int`, unsigned
carry `Nat`; the float alternatives carry the IEEE-754 bit pattern as a
`Nat` (the codec only moves the bits); strings are byte lists (a
`std::string` is a byte container). -/
inductive ParameterValue where
  | b (v : Bool)
  | i8 (v : Int)
  | i16 (v : Int)
  | i32 (v : Int)
  | i64 (v : Int)
  | u8 (v : Nat)
  | u16 (v : Nat)
  | u32 (v : Nat)
  | u64 (v : Nat)
  | f32 (bits : Nat)
  | f64 (bits : Nat)
  | str (s : List Nat)
  | bytes (v : List Nat)
  deriving DecidableEq, Repr

/-- The thirteen alternative types of the `ParameterValue` variant,
standing for the `std::type_index` values `Parameter::trySetValue`
compares (`common.h` lines 675-737). -/
inductive VType where
  | tBool
  | tI8
  | tI16
  | tI32
  | tI64
  | tU8
  | tU16
  | tU32
  | tU64
  | tF32
  | tF64
  | tString
  | tBytes
  deriving DecidableEq, Repr

/-- The variant alternative a `ParameterValue` currently holds. -/
def vtypeOf : ParameterValue → VType
  | .b _ => .tBool
  | .i8 _ => .tI8
  | .i16 _ => .tI16
  | .i32 _ => .tI32
  | .i64 _ => .tI64
  | .u8 _ => .tU8
  | .u16 _ => .tU16
  | .u32 _ => .tU32
  | .u64 _ => .tU64
  | .f32 _ => .tF32
  | .f64 _ => .tF64
  | .str _ => .tString
  | .bytes _ => .tBytes

/-- Little-endian value of a byte list (first byte least
significant). -/
def leNat : List Nat → Nat
  | [] => 0
  | byte :: rest => byte + 256 * leNat rest

/-- The `w` little-endian bytes of `n` (truncating above `2 ^ (8 * w)`),
as the C++ code produces by writing the value's low bytes. -/
def toLEBytes : Nat → Nat → List Nat
  | 0, _ => []
  | w + 1, n => n % 256 :: toLEBytes w (n / 256)

/-- Two's-complement reading of a `w`-byte unsigned value. -/
def toSigned (w : Nat) (n : Nat) : Int :=
  if n < 2 ^ (8 * w - 1) then (n : Int) else (n : Int) - 2 ^ (8 * w)

/-- The `w`-byte two's-complement pattern of an integer, as the C++
cast to the unsigned machine type produces. -/
def natOfIntMod (w : Nat) (v : Int) : Nat :=
  (v % (2 ^ (8 * w) : Nat)).toNat

/-- Remove trailing zero bytes, as the string decoder does before
constructing the `std::string` value. -/
def stripTrailingZeros (l : List Nat) : List Nat :=
  (l.reverse.dropWhile (fun byte => byte == 0)).reverse

/-- Read a `w`-byte little-endian field from the front of `data`;
fewer than `w` bytes is the spec's `SizeMismatch` (a buffer smaller
than the width requires). -/
def decodeLE (w : Nat) (data : List Nat) : Except CodecError Nat :=
  if data.length < w then .error .sizeMismatch
  else .ok (leNat (data.take w))

/-- Modelled from the spec: the body of `Parameter::getValue`
(declared at `common.h` lines 527-557) is not in the sources.  Decode
rules from spec section 4.1: little-endian integers with sign extension
for the 24/40/48/56-bit widths, `BYTE`/`WORD`/`DWORD` as
`UNSIGNED8/16/32`, floats as raw IEEE bit patterns, strings with
trailing NUL bytes stripped, the structured types exposed as their
first byte, and everything else `UnsupportedType`. -/
def decode (dt : ObjectDataType) (data : List Nat) :
    Except CodecError ParameterValue :=
  match dt with
  | .BOOLEAN => (decodeLE 1 data).map (fun n => .b (n != 0))
  | .INTEGER8 => (decodeLE 1 data).map (fun n => .i8 (toSigned 1 n))
  | .INTEGER16 => (decodeLE 2 data).map (fun n => .i16 (toSigned 2 n))
  | .INTEGER24 => (decodeLE 3 data).map (fun n => .i32 (toSigned 3 n))
  | .INTEGER32 => (decodeLE 4 data).map (fun n => .i32 (toSigned 4 n))
  | .INTEGER40 => (decodeLE 5 data).map (fun n => .i64 (toSigned 5 n))
  | .INTEGER48 => (decodeLE 6 data).map (fun n => .i64 (toSigned 6 n))
  | .INTEGER56 => (decodeLE 7 data).map (fun n => .i64 (toSigned 7 n))
  | .INTEGER64 => (decodeLE 8 data).map (fun n => .i64 (toSigned 8 n))
  | .UNSIGNED8 | .BYTE => (decodeLE 1 data).map .u8
  | .UNSIGNED16 | .WORD => (decodeLE 2 data).map .u16
  | .UNSIGNED24 => (decodeLE 3 data).map .u32
  | .UNSIGNED32 | .DWORD => (decodeLE 4 data).map .u32
  | .UNSIGNED40 => (decodeLE 5 data).map .u64
  | .UNSIGNED48 => (decodeLE 6 data).map .u64
  | .UNSIGNED56 => (decodeLE 7 data).map .u64
  | .UNSIGNED64 => (decodeLE 8 data).map .u64
  | .REAL32 => (decodeLE 4 data).map .f32
  | .REAL64 => (decodeLE 8 data).map .f64
  | .VISIBLE_STRING | .OCTET_STRING | .UNICODE_STRING =>
      .ok (.str (stripTrailingZeros data))
  | .PDO_MAPPING | .IDENTITY | .COMMAND_PAR | .RECORD =>
      (decodeLE 1 data).map .u8
  | _ => .error .unsupportedType

/-- The data types the value codec has a rule for (spec section 4.1):
`decode` succeeds on them given enough bytes. -/
def codecSupported (dt : ObjectDataType) : Bool :=
  match dt with
  | .UNSPECIFIED | .BIT1 | .BITARR8 => false
  | _ => true

/-- The variant alternative the section-4.1 codec mapping assigns to a
data type (the typed view `decode` produces), `none` when the type has
no codec rule. -/
def codecExpected (dt : ObjectDataType) : Option VType :=
  match dt with
  | .BOOLEAN => some .tBool
  | .INTEGER8 => some .tI8
  | .INTEGER16 => some .tI16
  | .INTEGER24 | .INTEGER32 => some .tI32
  | .INTEGER40 | .INTEGER48 | .INTEGER56 | .INTEGER64 => some .tI64
  | .UNSIGNED8 | .BYTE | .PDO_MAPPING | .IDENTITY | .COMMAND_PAR
  | .RECORD => some .tU8
  | .UNSIGNED16 | .WORD => some .tU16
  | .UNSIGNED24 | .UNSIGNED32 | .DWORD => some .tU32
  | .UNSIGNED40 | .UNSIGNED48 | .UNSIGNED56 | .UNSIGNED64 => some .tU64
  | .REAL32 => some .tF32
  | .REAL64 => some .tF64
  | .VISIBLE_STRING | .OCTET_STRING | .UNICODE_STRING => some .tString
  | _ => none

/-- Modelled from the spec: the body of `Parameter::setValue`
(declared at `common.h` lines 614-634) is not in the sources.  Encode
rules from spec section 4.1, symmetric to `decode`: a raw byte vector
replaces the buffer verbatim for any data type; integers and float bit
patterns are written as their width's little-endian bytes (the cast to
the field width truncates); a string is written with one terminating
NUL when `0 < byteLength` and the string plus NUL fits, else verbatim;
a variant alternative other than the expected one is `TypeMismatch`,
and a data type without a codec rule is `UnsupportedType`. -/
def encode (dt : ObjectDataType) (byteLength : Nat)
    (v : ParameterValue) : Except CodecError (List Nat) :=
  match v, dt with
  | .bytes l, _ => .ok l
  | .b x, .BOOLEAN => .ok [if x then 1 else 0]
  | .i8 x, .INTEGER8 => .ok (toLEBytes 1 (natOfIntMod 1 x))
  | .i16 x, .INTEGER16 => .ok (toLEBytes 2 (natOfIntMod 2 x))
  | .i32 x, .INTEGER24 => .ok (toLEBytes 3 (natOfIntMod 3 x))
  | .i32 x, .INTEGER32 => .ok (toLEBytes 4 (natOfIntMod 4 x))
  | .i64 x, .INTEGER40 => .ok (toLEBytes 5 (natOfIntMod 5 x))
  | .i64 x, .INTEGER48 => .ok (toLEBytes 6 (natOfIntMod 6 x))
  | .i64 x, .INTEGER56 => .ok (toLEBytes 7 (natOfIntMod 7 x))
  | .i64 x, .INTEGER64 => .ok (toLEBytes 8 (natOfIntMod 8 x))
  | .u8 x, .UNSIGNED8 | .u8 x, .BYTE => .ok (toLEBytes 1 x)
  | .u8 x, .PDO_MAPPING | .u8 x, .IDENTITY | .u8 x, .COMMAND_PAR
  | .u8 x, .RECORD => .ok (toLEBytes 1 x)
  | .u16 x, .UNSIGNED16 | .u16 x, .WORD => .ok (toLEBytes 2 x)
  | .u32 x, .UNSIGNED24 => .ok (toLEBytes 3 x)
  | .u32 x, .UNSIGNED32 | .u32 x, .DWORD => .ok (toLEBytes 4 x)
  | .u64 x, .UNSIGNED40 => .ok (toLEBytes 5 x)
  | .u64 x, .UNSIGNED48 => .ok (toLEBytes 6 x)
  | .u64 x, .UNSIGNED56 => .ok (toLEBytes 7 x)
  | .u64 x, .UNSIGNED64 => .ok (toLEBytes 8 x)
  | .f32 x, .REAL32 => .ok (toLEBytes 4 x)
  | .f64 x, .REAL64 => .ok (toLEBytes 8 x)
  | .str s, .VISIBLE_STRING | .str s, .OCTET_STRING
  | .str s, .UNICODE_STRING =>
      .ok (if 0 < byteLength ∧ s.length + 1 ≤ byteLength
        then s ++ [0] else s)
  | _, dt' =>
      if codecSupported dt' then .error .typeMismatch
      else .error .unsupportedType

/-- `Parameter` from `common.h` lines 472-812: name, identity,
lengths, type information, flag words (as their `uint16_t` values) and
the raw value buffer. -/
structure Parameter where
  name : String
  index : Nat
  subindex : Nat
  bitLength : Nat
  byteLength : Nat
  dataType : ObjectDataType
  code : Nat
  flags : Nat
  access : Nat
  data : List Nat
  deriving DecidableEq, Repr

/-- `Parameter::getValue` (`common.h` lines 527-557): decode the raw
buffer under the parameter's data type. -/
def getValue (p : Parameter) : Except CodecError ParameterValue :=
  decode p.dataType p.data

/-- `Parameter::setValue` (`common.h` lines 614-634): re-encode into
`data`; the byte length becomes the encoded length (spec section
4.3). -/
def setValue (p : Parameter) (v : ParameterValue) :
    Except CodecError Parameter :=
  (encode p.dataType p.byteLength v).map
    (fun bs => { p with data := bs, byteLength := bs.length })

/-- `v` is faithfully representable at `dt`'s declared width: the
variant alternative matches the section-4.1 mapping and the payload
survives the truncation to the wire width (in-range integers and float
bit patterns, strings not ending in a NUL byte). -/
def encodesFaithfully (dt : ObjectDataType) (v : ParameterValue) : Bool :=
  match v, dt with
  | .b _, .BOOLEAN => true
  | .i8 x, .INTEGER8 => decide (-(2 ^ 7) ≤ x ∧ x < 2 ^ 7)
  | .i16 x, .INTEGER16 => decide (-(2 ^ 15) ≤ x ∧ x < 2 ^ 15)
  | .i32 x, .INTEGER24 => decide (-(2 ^ 23) ≤ x ∧ x < 2 ^ 23)
  | .i32 x, .INTEGER32 => decide (-(2 ^ 31) ≤ x ∧ x < 2 ^ 31)
  | .i64 x, .INTEGER40 => decide (-(2 ^ 39) ≤ x ∧ x < 2 ^ 39)
  | .i64 x, .INTEGER48 => decide (-(2 ^ 47) ≤ x ∧ x < 2 ^ 47)
  | .i64 x, .INTEGER56 => decide (-(2 ^ 55) ≤ x ∧ x < 2 ^ 55)
  | .i64 x, .INTEGER64 => decide (-(2 ^ 63) ≤ x ∧ x < 2 ^ 63)
  | .u8 x, .UNSIGNED8 | .u8 x, .BYTE | .u8 x, .PDO_MAPPING
  | .u8 x, .IDENTITY | .u8 x, .COMMAND_PAR | .u8 x, .RECORD =>
      decide (x < 2 ^ 8)
  | .u16 x, .UNSIGNED16 | .u16 x, .WORD => decide (x < 2 ^ 16)
  | .u32 x, .UNSIGNED24 => decide (x < 2 ^ 24)
  | .u32 x, .UNSIGNED32 | .u32 x, .DWORD => decide (x < 2 ^ 32)
  | .u64 x, .UNSIGNED40 => decide (x < 2 ^ 40)
  | .u64 x, .UNSIGNED48 => decide (x < 2 ^ 48)
  | .u64 x, .UNSIGNED56 => decide (x < 2 ^ 56)
  | .u64 x, .UNSIGNED64 => decide (x < 2 ^ 64)
  | .f32 x, .REAL32 => decide (x < 2 ^ 32)
  | .f64 x, .REAL64 => decide (x < 2 ^ 64)
  | .str s, .VISIBLE_STRING | .str s, .OCTET_STRING
  | .str s, .UNICODE_STRING => decide (s.getLast? ≠ some 0)
  | _, _ => false

/-- The `expectedType` lambda inside `Parameter::trySetValue`
(`common.h` lines 677-727), transliterated switch case by switch case;
`none` stands for `typeid(void)` of the `default` arm.  Note the switch
has no cases for `BYTE`, `WORD`, `DWORD`, `INTEGER40/48/56` or
`UNSIGNED40/48/56`: they fall to the `default` arm. -/
def trySetExpectedType : ObjectDataType → Option VType
  | .BOOLEAN => some .tBool
  | .INTEGER8 => some .tI8
  | .INTEGER16 => some .tI16
  | .INTEGER24 | .INTEGER32 => some .tI32
  | .INTEGER64 => some .tI64
  | .UNSIGNED8 | .PDO_MAPPING | .IDENTITY | .COMMAND_PAR
  | .RECORD => some .tU8
  | .UNSIGNED16 => some .tU16
  | .UNSIGNED24 | .UNSIGNED32 => some .tU32
  | .UNSIGNED64 => some .tU64
  | .REAL32 => some .tF32
  | .REAL64 => some .tF64
  | .VISIBLE_STRING | .OCTET_STRING | .UNICODE_STRING => some .tString
  | _ => none

/-- `Parameter::trySetValue` (`common.h` lines 675-737): return
`(false, p)` unless the value's type index equals the expected one or
is the raw byte vector; otherwise store through `setValue` and return
true (an exception from `setValue` would propagate, modelled by the
`Except` layer). -/
def trySetValue (p : Parameter) (v : ParameterValue) :
    Except CodecError (Bool × Parameter) :=
  if trySetExpectedType p.dataType = some (vtypeOf v) ∨
      vtypeOf v = VType.tBytes then
    (setValue p v).map (fun p' => (true, p'))
  else .ok (false, p)

/-- `Parameter::tryGetValue` (`common.h` lines 604-612): call
`getValue` (whose failure propagates — there is no catch), then return
the value if it holds the requested alternative, `none` otherwise. -/
def tryGetValue (p : Parameter) (t : VType) :
    Except CodecError (Option ParameterValue) :=
  (getValue p).map (fun v => if vtypeOf v = t then some v else none)

/-- Modelled from the spec: the body of `EthernetDevice::setState`
(declared at `ethernet_client.h` lines 290-310) is not in the sources.
Spec section 4.5.4: `setState` returns true only if the response's
`status == OK` (0x00) and `sqiStatus == ACK` (0x58). -/
def setStateSucceeds (resp : EthernetMessage) : Bool :=
  resp.status == 0x00 && resp.sqiStatus == 0x58

/-- The spec's connection state machine (section 4.5.1):
`Closed → Connecting → Open → Closed`. -/
inductive ConnectionState where
  | Closed
  | Connecting
  | Open
  deriving DecidableEq, Repr

/-- The session state of an `EthernetDevice` the claims observe: the
connection state behind `isConnected` and the `seqId_` counter.  The
constructor models `EthernetDevice(ip, port)` (`ethernet_client.h`
lines 170-649): the socket starts unopened and, per the member
initializer in the source (line 643), `seqId_{0}`. -/
structure EthernetDeviceState where
  ip : String
  port : Nat
  connState : ConnectionState
  seqId : Nat
  deriving DecidableEq, Repr

/-- Modelled from the spec: the constructor body of `EthernetDevice`
is not in the sources.  A fresh device has not connected, so the state
machine starts `Closed` (spec section 4.5.1); `seqId_{0}` is the
in-source member initializer. -/
def freshEthernetDevice (ip : String) (port : Nat) :
    EthernetDeviceState :=
  ⟨ip, port, .Closed, 0⟩

/-- Modelled from the spec: the body of `EthernetDevice::isConnected`
(declared at `ethernet_client.h` lines 217-225) is not in the sources.
It reports whether the socket is open, which holds exactly in the
`Open` state. -/
def isConnected (d : EthernetDeviceState) : Bool :=
  d.connState == .Open

/-- Modelled from the spec: the body of
`EthernetDevice::incrementSeqId` (declared at `ethernet_client.h`
lines 191-203) is not in the sources.  Spec section 4.5.2: increment
the 16-bit counter, wrapping from 0xFFFF to 0, and return the new
value.  Returns `(returned value, new counter)`. -/
def incrementSeqId (s : Nat) : Nat × Nat :=
  ((s + 1) % 65536, (s + 1) % 65536)

/-- The values returned by `n` successive `incrementSeqId` calls
starting from counter value `s`. -/
def seqIdRun (s : Nat) : Nat → List Nat
  | 0 => []
  | n + 1 =>
      (incrementSeqId s).1 :: seqIdRun (incrementSeqId s).2 n

/-- `Parameter::operator<` (`common.h` lines 749-755): compare by
index, then by subindex. -/
def Parameter.ltb (a b : Parameter) : Bool :=
  if a.index ≠ b.index then a.index < b.index else a.subindex < b.subindex

/-- `Parameter::operator>` (`common.h` lines 767-773): compare by
index, then by subindex, reversed. -/
def Parameter.gtb (a b : Parameter) : Bool :=
  if a.index ≠ b.index then a.index > b.index else a.subindex > b.subindex

/-- `Parameter::operator==` (`common.h` lines 785-787): equality of
index and subindex only. -/
def Parameter.eqb (a b : Parameter) : Bool :=
  a.index == b.index && a.subindex == b.subindex

/-- The scenario-1 example frame: `FILE_READ` (0x0C), id 0x1234,
status OK, sqiStatus ACK, payload "abc". -/
def exampleMessage : EthernetMessage :=
  ⟨0x0C, 0x1234, 0x00, 0x58, 3, [0x61, 0x62, 0x63]⟩

/-- The counterexample parameter for C3: an `INTEGER24` entry with an
empty buffer. -/
def int24Parameter : Parameter :=
  ⟨"Int24 object", 0x2001, 0, 24, 3, .INTEGER24, 7, 0, 0, []⟩

/-- The scenario-2 parameter: `INTEGER24` with buffer
`[0xFE, 0xFF, 0xFF]`. -/
def int24Example : Parameter :=
  ⟨"Int24 example", 0x2001, 0, 24, 3, .INTEGER24, 7, 0, 0,
    [0xFE, 0xFF, 0xFF]⟩

/-- A `BYTE` parameter, for the C5 counterexample. -/
def byteParameter : Parameter :=
  ⟨"Byte object", 0x2002, 0, 8, 1, .BYTE, 7, 0, 0, [0]⟩

/-- A parameter whose data type has no codec rule, for the C6
counterexample. -/
def bit1Parameter : Parameter :=
  ⟨"Bit object", 0x2003, 0, 1, 0, .BIT1, 7, 0, 0, [1]⟩

/-- An `UNSIGNED8` parameter holding the byte 2, for the C6
witness. -/
def u8Parameter : Parameter :=
  ⟨"U8 object", 0x2004, 0, 8, 1, .UNSIGNED8, 7, 0, 0, [2]⟩

/-- Three parameters sharing metadata but distinct identities, for the
C10 witness. -/
def paramA : Parameter :=
  ⟨"A", 0x1000, 0, 8, 1, .UNSIGNED8, 7, 0, 0, []⟩

def paramB : Parameter :=
  ⟨"B", 0x1000, 1, 8, 1, .UNSIGNED8, 7, 0, 0, []⟩

def paramC : Parameter :=
  ⟨"C", 0x2000, 0, 8, 1, .UNSIGNED8, 7, 0, 0, []⟩

theorem toLEBytes_length (w n : Nat) : (toLEBytes w n).length = w := by
  induction w generalizing n with
  | zero => rfl
  | succ w ih => simp [toLEBytes, ih]

theorem leNat_toLEBytes (w n : Nat) :
    leNat (toLEBytes w n) = n % 2 ^ (8 * w) := by
  induction w generalizing n with
  | zero => simp [toLEBytes, leNat, Nat.mod_one]
  | succ w ih =>
      have hpow : 2 ^ (8 * (w + 1)) = 256 * 2 ^ (8 * w) := by
        rw [show 8 * (w + 1) = 8 + 8 * w from by ring, Nat.pow_add]
      rw [toLEBytes, leNat, ih, hpow, Nat.mod_mul]

theorem decodeLE_toLEBytes (w n : Nat) :
    decodeLE w (toLEBytes w n) = .ok (n % 2 ^ (8 * w)) := by
  have hlen := toLEBytes_length w n
  simp [decodeLE, hlen, ← leNat_toLEBytes w n,
    List.take_of_length_le (le_of_eq hlen)]

theorem natOfIntMod_lt (w : Nat) (x : Int) :
    natOfIntMod w x < 2 ^ (8 * w) := by
  have hpos : (0 : Int) < (2 ^ (8 * w) : Nat) := by positivity
  have := Int.emod_lt_of_pos x hpos
  have hnn := Int.emod_nonneg x (ne_of_gt hpos)
  unfold natOfIntMod
  omega

theorem toSigned_natOfIntMod (w : Nat) (hw : 0 < w) (x : Int)
    (h1 : -(2 ^ (8 * w - 1)) ≤ x) (h2 : x < 2 ^ (8 * w - 1)) :
    toSigned w (natOfIntMod w x % 2 ^ (8 * w)) = x := by
  have hhalf : (2 ^ (8 * w - 1) : Int) * 2 = 2 ^ (8 * w) := by
    rw [← pow_succ]
    congr 1
    omega
  have hNpos : (0 : Int) < (2 ^ (8 * w) : Nat) := by positivity
  have hcastN : ((2 ^ (8 * w) : Nat) : Int) = 2 ^ (8 * w) := by push_cast; rfl
  have hmodid : natOfIntMod w x % 2 ^ (8 * w) = natOfIntMod w x :=
    Nat.mod_eq_of_lt (natOfIntMod_lt w x)
  have hval : (natOfIntMod w x : Int) = x % 2 ^ (8 * w) := by
    unfold natOfIntMod
    rw [Int.toNat_of_nonneg (Int.emod_nonneg x (ne_of_gt hNpos)), hcastN]
  have hxmod : x % (2 : Int) ^ (8 * w) =
      if 0 ≤ x then x else x + 2 ^ (8 * w) := by
    split_ifs with hx
    · exact Int.emod_eq_of_lt hx (by omega)
    · have hstep : (x + (2 : Int) ^ (8 * w)) % (2 : Int) ^ (8 * w) =
          x % 2 ^ (8 * w) := by
        simpa using Int.add_mul_emod_self_left
          (a := x) (b := (2 : Int) ^ (8 * w)) (c := 1)
      rw [← hstep]
      exact Int.emod_eq_of_lt (by omega) (by omega)
  have hhalfN : ((2 ^ (8 * w - 1) : Nat) : Int) = 2 ^ (8 * w - 1) := by
    push_cast; rfl
  unfold toSigned
  rw [hmodid]
  split_ifs with hcond
  · have : (natOfIntMod w x : Int) < 2 ^ (8 * w - 1) := by
      rw [← hhalfN]; exact_mod_cast hcond
    rw [hval] at this ⊢
    rw [hxmod] at this ⊢
    split_ifs at this ⊢ with hx
    · rfl
    · omega
  · have : ¬((natOfIntMod w x : Int) < 2 ^ (8 * w - 1)) := by
      rw [← hhalfN]; exact_mod_cast hcond
    rw [hval] at this ⊢
    rw [hxmod] at this ⊢
    split_ifs at this ⊢ with hx
    · omega
    · omega

theorem stripTrailingZeros_eq_self {s : List Nat}
    (h : s.getLast? ≠ some 0) : stripTrailingZeros s = s := by
  unfold stripTrailingZeros
  cases hr : s.reverse with
  | nil =>
      have hs : s = [] := by simpa using congrArg List.reverse hr
      simp [hs]
  | cons a t =>
      have ha : a ≠ 0 := by
        intro h0
        apply h
        rw [← List.head?_reverse, hr, h0]
        rfl
      rw [List.dropWhile_cons_of_neg (by simpa using ha), ← hr,
        List.reverse_reverse]

theorem stripTrailingZeros_append_zero {s : List Nat}
    (h : s.getLast? ≠ some 0) : stripTrailingZeros (s ++ [0]) = s := by
  have hdrop : stripTrailingZeros (s ++ [0]) = stripTrailingZeros s := by
    unfold stripTrailingZeros
    rw [List.reverse_append]
    simp [List.dropWhile_cons_of_pos]
  rw [hdrop, stripTrailingZeros_eq_self h]

theorem signed_roundtrip (w : Nat) (hw : 0 < w) (x : Int)
    (h1 : -(2 ^ (8 * w - 1)) ≤ x) (h2 : x < 2 ^ (8 * w - 1)) :
    decodeLE w (toLEBytes w (natOfIntMod w x)) =
      .ok (natOfIntMod w x % 2 ^ (8 * w)) ∧
    toSigned w (natOfIntMod w x % 2 ^ (8 * w)) = x :=
  ⟨decodeLE_toLEBytes w (natOfIntMod w x),
    toSigned_natOfIntMod w hw x h1 h2⟩

set_option maxHeartbeats 800000 in
/-- Encoding a faithful value and decoding the produced buffer under
the same data type returns the value. -/
theorem encode_decode_faithful (dt : ObjectDataType) (bl : Nat)
    (v : ParameterValue) (hf : encodesFaithfully dt v = true) :
    ∃ bs, encode dt bl v = .ok bs ∧ decode dt bs = .ok v := by
  cases v with
  | b x =>
      cases dt <;>
        simp only [encodesFaithfully, Bool.false_eq_true,
          decide_eq_true_eq] at hf <;>
      exact ⟨_, rfl, by cases x <;> rfl⟩
  | i8 x =>
      cases dt <;>
        simp only [encodesFaithfully, Bool.false_eq_true,
          decide_eq_true_eq] at hf <;>
      exact ⟨_, rfl, by
        simp only [decode]
        rw [decodeLE_toLEBytes]
        simp only [Except.map, Except.ok.injEq, ParameterValue.i8.injEq]
        exact toSigned_natOfIntMod 1 (by norm_num) x hf.1 hf.2⟩
  | i16 x =>
      cases dt <;>
        simp only [encodesFaithfully, Bool.false_eq_true,
          decide_eq_true_eq] at hf <;>
      exact ⟨_, rfl, by
        simp only [decode]
        rw [decodeLE_toLEBytes]
        simp only [Except.map, Except.ok.injEq, ParameterValue.i16.injEq]
        exact toSigned_natOfIntMod 2 (by norm_num) x hf.1 hf.2⟩
  | i32 x =>
      cases dt <;>
        simp only [encodesFaithfully, Bool.false_eq_true,
          decide_eq_true_eq] at hf <;>
      first
      | exact ⟨_, rfl, by
          simp only [decode]
          rw [decodeLE_toLEBytes]
          simp only [Except.map, Except.ok.injEq,
            ParameterValue.i32.injEq]
          exact toSigned_natOfIntMod 3 (by norm_num) x hf.1 hf.2⟩
      | exact ⟨_, rfl, by
          simp only [decode]
          rw [decodeLE_toLEBytes]
          simp only [Except.map, Except.ok.injEq,
            ParameterValue.i32.injEq]
          exact toSigned_natOfIntMod 4 (by norm_num) x hf.1 hf.2⟩
  | i64 x =>
      cases dt <;>
        simp only [encodesFaithfully, Bool.false_eq_true,
          decide_eq_true_eq] at hf <;>
      first
      | exact ⟨_, rfl, by
          simp only [decode]
          rw [decodeLE_toLEBytes]
          simp only [Except.map, Except.ok.injEq,
            ParameterValue.i64.injEq]
          exact toSigned_natOfIntMod 5 (by norm_num) x hf.1 hf.2⟩
      | exact ⟨_, rfl, by
          simp only [decode]
          rw [decodeLE_toLEBytes]
          simp only [Except.map, Except.ok.injEq,
            ParameterValue.i64.injEq]
          exact toSigned_natOfIntMod 6 (by norm_num) x hf.1 hf.2⟩
      | exact ⟨_, rfl, by
          simp only [decode]
          rw [decodeLE_toLEBytes]
          simp only [Except.map, Except.ok.injEq,
            ParameterValue.i64.injEq]
          exact toSigned_natOfIntMod 7 (by norm_num) x hf.1 hf.2⟩
      | exact ⟨_, rfl, by
          simp only [decode]
          rw [decodeLE_toLEBytes]
          simp only [Except.map, Except.ok.injEq,
            ParameterValue.i64.injEq]
          exact toSigned_natOfIntMod 8 (by norm_num) x hf.1 hf.2⟩
  | u8 x =>
      cases dt <;>
        simp only [encodesFaithfully, Bool.false_eq_true,
          decide_eq_true_eq] at hf <;>
      exact ⟨_, rfl, by
        simp only [decode]
        rw [decodeLE_toLEBytes]
        simp only [Except.map, Except.ok.injEq, ParameterValue.u8.injEq]
        exact Nat.mod_eq_of_lt hf⟩
  | u16 x =>
      cases dt <;>
        simp only [encodesFaithfully, Bool.false_eq_true,
          decide_eq_true_eq] at hf <;>
      exact ⟨_, rfl, by
        simp only [decode]
        rw [decodeLE_toLEBytes]
        simp only [Except.map, Except.ok.injEq, ParameterValue.u16.injEq]
        exact Nat.mod_eq_of_lt hf⟩
  | u32 x =>
      cases dt <;>
        simp only [encodesFaithfully, Bool.false_eq_true,
          decide_eq_true_eq] at hf <;>
      exact ⟨_, rfl, by
        simp only [decode]
        rw [decodeLE_toLEBytes]
        simp only [Except.map, Except.ok.injEq, ParameterValue.u32.injEq]
        exact Nat.mod_eq_of_lt hf⟩
  | u64 x =>
      cases dt <;>
        simp only [encodesFaithfully, Bool.false_eq_true,
          decide_eq_true_eq] at hf <;>
      exact ⟨_, rfl, by
        simp only [decode]
        rw [decodeLE_toLEBytes]
        simp only [Except.map, Except.ok.injEq, ParameterValue.u64.injEq]
        exact Nat.mod_eq_of_lt hf⟩
  | f32 x =>
      cases dt <;>
        simp only [encodesFaithfully, Bool.false_eq_true,
          decide_eq_true_eq] at hf <;>
      exact ⟨_, rfl, by
        simp only [decode]
        rw [decodeLE_toLEBytes]
        simp only [Except.map, Except.ok.injEq, ParameterValue.f32.injEq]
        exact Nat.mod_eq_of_lt hf⟩
  | f64 x =>
      cases dt <;>
        simp only [encodesFaithfully, Bool.false_eq_true,
          decide_eq_true_eq] at hf <;>
      exact ⟨_, rfl, by
        simp only [decode]
        rw [decodeLE_toLEBytes]
        simp only [Except.map, Except.ok.injEq, ParameterValue.f64.injEq]
        exact Nat.mod_eq_of_lt hf⟩
  | str s =>
      cases dt <;>
        simp only [encodesFaithfully, Bool.false_eq_true,
          decide_eq_true_eq] at hf <;>
      exact ⟨_, rfl, by
        simp only [decode, Except.ok.injEq, ParameterValue.str.injEq]
        split_ifs with hfit
        · exact stripTrailingZeros_append_zero hf
        · exact stripTrailingZeros_eq_self hf⟩
  | bytes l =>
      cases dt <;>
        simp only [encodesFaithfully, Bool.false_eq_true,
          decide_eq_true_eq] at hf

/-- Counterexample to C3 as stated: `INTEGER24` is supported and maps
to the signed 32-bit alternative, the value `2 ^ 23` inhabits that
alternative, yet `setValue` then `getValue` returns `-2 ^ 23`, not the
value set — the 24-bit wire width truncates. -/
theorem setValue_getValue_not_id :
    codecSupported int24Parameter.dataType = true ∧
    codecExpected int24Parameter.dataType =
      some (vtypeOf (.i32 8388608)) ∧
    (setValue int24Parameter (.i32 8388608)).bind getValue =
      .ok (.i32 (-8388608)) ∧
    ParameterValue.i32 (-8388608) ≠ .i32 8388608 := by
  refine ⟨rfl, rfl, ?_, by decide⟩
  rfl

/-- C3 (amended): for a parameter whose `dataType` is supported and a
matching value that is faithfully representable at the declared width,
`setValue` then `getValue` returns the value set. -/
theorem setValue_getValue_roundtrip (p : Parameter) (v : ParameterValue)
    (p' : Parameter) (hf : encodesFaithfully p.dataType v = true)
    (hset : setValue p v = .ok p') : getValue p' = .ok v := by
  obtain ⟨bs, henc, hdec⟩ :=
    encode_decode_faithful p.dataType p.byteLength v hf
  unfold setValue at hset
  rw [henc] at hset
  simp only [Except.map, Except.ok.injEq] at hset
  subst hset
  simpa [getValue] using hdec

/-- Witness for C3 (amended): a `UNSIGNED16` parameter stores 0xABCD
and reads it back. -/
theorem setValue_getValue_roundtrip_witness :
    encodesFaithfully ObjectDataType.UNSIGNED16 (.u16 0xABCD) = true ∧
    setValue ⟨"", 0x6040, 0, 16, 2, .UNSIGNED16, 7, 0, 0, []⟩
        (.u16 0xABCD) =
      .ok ⟨"", 0x6040, 0, 16, 2, .UNSIGNED16, 7, 0, 0, [0xCD, 0xAB]⟩ ∧
    getValue ⟨"", 0x6040, 0, 16, 2, .UNSIGNED16, 7, 0, 0, [0xCD, 0xAB]⟩ =
      .ok (.u16 0xABCD) :=
  ⟨by decide, by rfl,
    setValue_getValue_roundtrip
      ⟨"", 0x6040, 0, 16, 2, .UNSIGNED16, 7, 0, 0, []⟩ (.u16 0xABCD)
      ⟨"", 0x6040, 0, 16, 2, .UNSIGNED16, 7, 0, 0, [0xCD, 0xAB]⟩
      (by decide) (by rfl)⟩

/-- C4: an `INTEGER24` buffer decodes little-endian into a signed
32-bit value sign-extended from the top byte of the 24-bit width, and
`[0xFE, 0xFF, 0xFF]` decodes to `-2`. -/
theorem int24_decode_sign_extends :
    (∀ b0 b1 b2 : Nat, b0 < 256 → b1 < 256 → b2 < 256 →
      decode .INTEGER24 [b0, b1, b2] =
        .ok (.i32 (if b2 < 0x80
          then ((b0 : Int) + 256 * b1 + 65536 * b2)
          else ((b0 : Int) + 256 * b1 + 65536 * b2) - 16777216))) ∧
    getValue int24Example = .ok (.i32 (-2)) := by
  refine ⟨fun b0 b1 b2 h0 h1 h2 => ?_, by rfl⟩
  have hled : decodeLE 3 [b0, b1, b2] =
      .ok (b0 + 256 * (b1 + 256 * (b2 + 256 * 0))) := by
    simp [decodeLE, leNat]
  simp only [decode, hled, Except.map, Except.ok.injEq,
    ParameterValue.i32.injEq]
  unfold toSigned
  have hpow1 : 2 ^ (8 * 3 - 1) = 8388608 := by norm_num
  have hpow2 : (2 : Int) ^ (8 * 3) = 16777216 := by norm_num
  rw [hpow1, hpow2]
  split_ifs with hc hb hb <;> push_cast <;> omega

/-- Witness for C4 at the scenario-2 bytes. -/
theorem int24_decode_sign_extends_witness :
    (0xFE : Nat) < 256 ∧ (0xFF : Nat) < 256 ∧
      decode .INTEGER24 [0xFE, 0xFF, 0xFF] = .ok (.i32 (-2)) := by
  refine ⟨by decide, by decide, ?_⟩
  have h := int24_decode_sign_extends.1 0xFE 0xFF 0xFF
    (by decide) (by decide) (by decide)
  norm_num at h
  exact h

/-- C1: for every message with `data.length = size ≤ kBufferSize`
(and fields within their C++ integer types), parsing the serialization
returns the message unchanged. -/
theorem parse_serialize_roundtrip (m : EthernetMessage) (hwf : m.WF)
    (hlen : m.data.length = m.size) (hsz : m.size ≤ kBufferSize) :
    parseEthernetMessage (serializeEthernetMessage m) = .ok m := by
  obtain ⟨-, hid, -, -, hsize, -⟩ := hwf
  have hid' : m.id / 256 % 256 = m.id / 256 :=
    Nat.mod_eq_of_lt (by omega)
  have hsz' : m.size / 256 % 256 = m.size / 256 :=
    Nat.mod_eq_of_lt (by omega)
  have hids : m.id % 256 + 256 * (m.id / 256) = m.id :=
    Nat.mod_add_div m.id 256
  have hszs : m.size % 256 + 256 * (m.size / 256) = m.size :=
    Nat.mod_add_div m.size 256
  simp only [serializeEthernetMessage, parseEthernetMessage, hid', hsz',
    hids, hszs, hlen, lt_self_iff_false, if_false]
  rw [← hlen, List.take_length, hlen]

/-- Witness for C1 at the scenario-1 frame. -/
theorem parse_serialize_roundtrip_witness :
    exampleMessage.WF ∧ exampleMessage.data.length = exampleMessage.size ∧
      exampleMessage.size ≤ kBufferSize ∧
      parseEthernetMessage (serializeEthernetMessage exampleMessage) =
        .ok exampleMessage :=
  ⟨by decide, by decide, by decide,
    parse_serialize_roundtrip exampleMessage (by decide) (by decide)
      (by decide)⟩

/-- C2: serialization emits the 7-byte header in the order `type,
id_lo, id_hi, status, sqiStatus, size_lo, size_hi` with `id` and `size`
little-endian, then the payload; on the scenario-1 frame it yields
exactly `[0x0C, 0x34, 0x12, 0x00, 0x58, 0x03, 0x00, 0x61, 0x62,
0x63]`. -/
theorem serialize_header_order :
    (∀ m : EthernetMessage,
      serializeEthernetMessage m =
        [m.type] ++ [m.id % 256, m.id / 256 % 256] ++
          [m.status, m.sqiStatus] ++
          [m.size % 256, m.size / 256 % 256] ++ m.data) ∧
    serializeEthernetMessage exampleMessage =
      [0x0C, 0x34, 0x12, 0x00, 0x58, 0x03, 0x00, 0x61, 0x62, 0x63] :=
  ⟨fun _ => rfl, by decide⟩

set_option maxHeartbeats 800000 in
theorem encode_isOk_of_trySetMatch (dt : ObjectDataType) (bl : Nat)
    (v : ParameterValue)
    (h : trySetExpectedType dt = some (vtypeOf v) ∨
      vtypeOf v = VType.tBytes) :
    ∃ bs, encode dt bl v = .ok bs := by
  cases v <;> cases dt <;>
    first
    | exact ⟨_, rfl⟩
    | simp [trySetExpectedType, vtypeOf] at h

/-- Counterexample to C5 as stated: the section-4.1 codec mapping
assigns `BYTE` the unsigned 8-bit alternative, yet `trySetValue` with
a `u8` value on a `BYTE` parameter returns false — the source's
`expectedType` switch has no `BYTE`/`WORD`/`DWORD` cases, so they fall
to the `typeid(void)` default. -/
theorem trySetValue_byte_rejected :
    codecExpected ObjectDataType.BYTE = some (vtypeOf (.u8 5)) ∧
      trySetValue byteParameter (.u8 5) = .ok (false, byteParameter) :=
  ⟨rfl, rfl⟩

/-- C5 (amended): `trySetValue` succeeds (returns true, having stored
through `setValue`) exactly when the value's variant alternative
matches the expected type of the source's `expectedType` switch — which
omits `BYTE`, `WORD`, `DWORD` and the 40/48/56-bit integer types — or
the value is a raw byte vector. -/
theorem trySetValue_true_iff (p : Parameter) (v : ParameterValue) :
    (∃ p', trySetValue p v = .ok (true, p')) ↔
      (trySetExpectedType p.dataType = some (vtypeOf v) ∨
        vtypeOf v = VType.tBytes) := by
  unfold trySetValue
  split_ifs with hc
  · constructor
    · intro _
      exact hc
    · intro _
      obtain ⟨bs, hbs⟩ :=
        encode_isOk_of_trySetMatch p.dataType p.byteLength v hc
      refine ⟨{ p with data := bs, byteLength := bs.length }, ?_⟩
      unfold setValue
      rw [hbs]
      rfl
  · constructor
    · rintro ⟨p', hp'⟩
      simp at hp'
    · intro h
      exact absurd h hc

/-- Counterexample to C6 as stated: on a parameter whose data type has
no codec rule, `tryGetValue` does not return an optional — the
`UnsupportedType` failure of the uncaught `getValue` call
propagates. -/
theorem tryGetValue_error_on_unsupported :
    tryGetValue bit1Parameter .tU8 = .error .unsupportedType :=
  rfl

/-- C6 (amended): when `getValue` succeeds, `tryGetValue` returns the
value if it holds the requested alternative and `none` on a mismatch,
signalling no error; when `getValue` fails — as for a data type with
no codec rule — `tryGetValue` propagates that error instead of
returning an optional. -/
theorem tryGetValue_spec (p : Parameter) (t : VType) :
    (∀ v, getValue p = .ok v →
      tryGetValue p t =
        .ok (if vtypeOf v = t then some v else none)) ∧
    (∀ e, getValue p = .error e → tryGetValue p t = .error e) := by
  constructor
  · intro v hv
    unfold tryGetValue
    rw [hv]
    rfl
  · intro e he
    unfold tryGetValue
    rw [he]
    rfl

/-- Witness for C6 (amended): on an `UNSIGNED8` parameter holding the
byte 2, asking for the wrong alternative gives `none` and the right
one gives the value. -/
theorem tryGetValue_spec_witness :
    tryGetValue u8Parameter .tU16 = .ok none ∧
      tryGetValue u8Parameter .tU8 = .ok (some (.u8 2)) := by
  constructor
  · have h := (tryGetValue_spec u8Parameter .tU16).1 (.u8 2) rfl
    simpa [vtypeOf] using h
  · have h := (tryGetValue_spec u8Parameter .tU8).1 (.u8 2) rfl
    simpa [vtypeOf] using h

/-- C7: `setState` reports success exactly when the parsed response
has segmentation status `OK` (0x00) and `sqiStatus` `ACK` (0x58); any
other combination yields false. -/
theorem setState_ok_iff (resp : EthernetMessage) :
    (setStateSucceeds resp = true ↔
      (resp.status = 0x00 ∧ resp.sqiStatus = 0x58)) ∧
    (setStateSucceeds resp = false ↔
      (resp.status ≠ 0x00 ∨ resp.sqiStatus ≠ 0x58)) := by
  constructor
  · simp [setStateSucceeds]
  · simp [setStateSucceeds]
    tauto

theorem seqIdRun_eq (n s : Nat) :
    seqIdRun s n = (List.range n).map (fun i => (s + 1 + i) % 65536) := by
  induction n generalizing s with
  | zero => rfl
  | succ n ih =>
      rw [seqIdRun, List.range_succ_eq_map, List.map_cons, List.map_map]
      simp only [incrementSeqId]
      rw [ih]
      refine congrArg₂ List.cons (by simp) ?_
      refine List.map_congr_left ?_
      intro i hi
      simp only [Function.comp_apply]
      rw [Nat.add_assoc, Nat.mod_add_mod]
      congr 1
      omega

/-- C8: the sequence counter starts at 0, the first `incrementSeqId`
returns 1, and `n` successive calls starting from counter value
`k - 1` return `(k, k + 1, …) mod 2 ^ 16`. -/
theorem seqId_sequence :
    (∀ ip port, (freshEthernetDevice ip port).seqId = 0) ∧
    (incrementSeqId 0).1 = 1 ∧
    ∀ k n, 1 ≤ k →
      seqIdRun (k - 1) n =
        (List.range n).map (fun i => (k + i) % 65536) := by
  refine ⟨fun ip port => rfl, rfl, fun k n hk => ?_⟩
  rw [seqIdRun_eq]
  apply List.map_congr_left
  intro i hi
  congr 1
  omega

/-- Witness for C8: three increments from counter value 4 return
5, 6, 7. -/
theorem seqId_sequence_witness :
    1 ≤ 5 ∧
      seqIdRun 4 3 = (List.range 3).map (fun i => (5 + i) % 65536) :=
  ⟨by decide, seqId_sequence.2.2 5 3 (by decide)⟩

/-- C9: a freshly constructed device is not connected — the state
machine starts `Closed`, so `isConnected` returns false before any
`connect` call (the example drivers assert exactly this). -/
theorem fresh_device_not_connected :
    isConnected (freshEthernetDevice "192.168.100.5" 8080) = false ∧
      (freshEthernetDevice "192.168.100.5" 8080).connState =
        ConnectionState.Closed :=
  ⟨rfl, rfl⟩

/-- C10: `operator==` holds exactly on equal `(index, subindex)`
whatever the other fields hold, `operator<` is irreflexive and
transitive, and for any two parameters exactly one of `a < b`,
`a > b`, `a == b` holds. -/
theorem parameter_order_spec (a b c : Parameter) :
    (Parameter.eqb a b = true ↔
      (a.index = b.index ∧ a.subindex = b.subindex)) ∧
    Parameter.ltb a a = false ∧
    (Parameter.ltb a b = true → Parameter.ltb b c = true →
      Parameter.ltb a c = true) ∧
    ((Parameter.ltb a b = true ∧ Parameter.gtb a b = false ∧
        Parameter.eqb a b = false) ∨
      (Parameter.ltb a b = false ∧ Parameter.gtb a b = true ∧
        Parameter.eqb a b = false) ∨
      (Parameter.ltb a b = false ∧ Parameter.gtb a b = false ∧
        Parameter.eqb a b = true)) := by
  refine ⟨?_, ?_, ?_, ?_⟩
  · simp [Parameter.eqb]
  · simp [Parameter.ltb]
  · intro h1 h2
    simp only [Parameter.ltb] at h1 h2 ⊢
    split_ifs at h1 h2 ⊢ <;> simp_all <;> omega
  · simp only [Parameter.ltb, Parameter.gtb, Parameter.eqb]
    split_ifs <;> simp_all <;> omega

/-- Witness for C10: the transitivity conjunct at three concrete
parameters. -/
theorem parameter_order_spec_witness :
    Parameter.ltb paramA paramC = true :=
  (parameter_order_spec paramA paramB paramC).2.2.1
    (by decide) (by decide)

end EthernetClient
